import Mathlib

/-!
Verification model of the cnx status-bar runtime core (`cnx/src/xcb.rs`,
`cnx/src/lib.rs`): the external-readiness bridge stream, the property-change
filter, the widget stream multiplexer, and the run loop.

The bridge (`BarEventStream::poll_next` and `XcbEventStream::poll_next`, whose
bodies are textually identical state machines) is embedded as a fuel-indexed
interpreter over an explicit state: the xcb connection's decodable-event buffer,
the tokio `AsyncFd` readiness state, and the stream's `would_block` flag.
External arrivals (new data on the descriptor) are injected by an environment
`env : Nat → List GenericEvent`, applied just before each primitive operation;
the micro-step clock `t` indexes these injection points.

`AsyncFd` readiness is modelled from tokio's documented semantics: readiness is
a flag plus a generation `tick`; `poll_read_ready` hands out a guard that
records the tick, and `AsyncFdReadyGuard::clear_ready` only clears readiness
whose tick matches the guard's, so readiness that arrived after the guard was
taken survives the clear.
-/

/-- A raw protocol event (`xcb::GenericEvent`). `responseType` is the value of
`response_type()`; `atom` is the atom field visible after casting to
`PropertyNotifyEvent` (only meaningful when `responseType = PROPERTY_NOTIFY`). -/
structure GenericEvent where
  responseType : Nat
  atom : Nat
deriving Repr, DecidableEq

/-- `xcb::xproto::PROPERTY_NOTIFY`. -/
def PROPERTY_NOTIFY : Nat := 28

/-- The xcb connection, reduced to its internal buffer of decodable events. -/
structure Connection where
  buffer : List GenericEvent
deriving Repr, DecidableEq

/-- `xcb::Connection::poll_for_event`: pop the next decodable event, if any. -/
def Connection.poll_for_event (c : Connection) : Option GenericEvent × Connection :=
  match c.buffer with
  | [] => (none, c)
  | e :: rest => (some e, ⟨rest⟩)

/-- The tokio reactor's view of the descriptor: readiness flag, readiness
generation (`tick`), and whether `poll_read_ready` reports an I/O error. -/
structure OsState where
  ready : Bool
  tick : Nat
  err : Bool
deriving Repr, DecidableEq

/-- `AsyncFdReadyGuard::clear_ready`: clears readiness only when the current
tick still matches the tick recorded in the guard (readiness that arrived after
the guard was created is preserved). -/
def OsState.clear_ready (os : OsState) (g : Nat) : OsState :=
  if os.tick = g then { os with ready := false } else os

/-- The bridge stream state: the `would_block` flag of
`BarEventStream` / `XcbEventStream`, together with the wrapped connection and
the reactor state reached through the `AsyncFd`. -/
structure BridgeState where
  would_block : Bool
  conn : Connection
  os : OsState
deriving Repr, DecidableEq

/-- `BarEventStream::new` / `XcbEventStream::new`: wrap the connection in an
`AsyncFd` registered for read interest, starting with `would_block = true`. -/
def BarEventStream.new (conn : Connection) (os : OsState) : BridgeState :=
  { would_block := true, conn := conn, os := os }

/-- External arrival of events on the descriptor: each arriving event is
appended to the connection's decodable buffer and bumps the reactor's
readiness (new edge: `ready := true`, fresh tick). -/
def BridgeState.arrive (s : BridgeState) (evs : List GenericEvent) : BridgeState :=
  evs.foldl
    (fun s e =>
      { s with
        conn := ⟨s.conn.buffer ++ [e]⟩,
        os := { s.os with ready := true, tick := s.os.tick + 1 } })
    s

/-- The result of one `poll_next` call (`Poll<Option<Item>>`; a panic is
modelled as `fatal`). -/
inductive Poll (α : Type) where
  | ready (v : α)
  | pending
  | fatal (msg : String)
deriving Repr, DecidableEq

/-- Trace of the primitive operations a `poll_next` call performs, in order. -/
inductive BridgeAction where
  | wait_pending
  | wait_ok (tick : Nat)
  | wait_err
  | decoded (r : Option GenericEvent)
  | cleared_ready (tick : Nat)
deriving Repr, DecidableEq

/-- One pass through the body of `poll_next` (src/cnx/src/xcb.rs lines 49-79
and 121-151): the `would_block` branch calling `poll_read_ready`, then
`poll_for_event`, then on decode failure the `would_block := true` transition
and the guard-dependent `clear_ready`.  Returns `some r` for a final result, or
`none` when the source re-enters `self.poll_next(cx)` (the recursive retry).
Arrivals `env t` are applied just before each primitive operation. -/
def poll_iter (env : Nat → List GenericEvent) (t : Nat) (s : BridgeState) :
    Option (Poll (Option GenericEvent)) × BridgeState × Nat × List BridgeAction :=
  let step1 :
      Option (Poll (Option GenericEvent)) × BridgeState × Nat × Option Nat × List BridgeAction :=
    if s.would_block then
      let sa := s.arrive (env t)
      if sa.os.err then
        (some (Poll.fatal "Error polling xcb::Connection"), sa, t + 1, none,
          [BridgeAction.wait_err])
      else if sa.os.ready then
        (none, { sa with would_block := false }, t + 1, some sa.os.tick,
          [BridgeAction.wait_ok sa.os.tick])
      else
        (some Poll.pending, sa, t + 1, none, [BridgeAction.wait_pending])
    else
      (none, s, t, none, [])
  match step1 with
  | (some r, s1, t1, _, tr) => (some r, s1, t1, tr)
  | (none, s1, t1, g, tr) =>
    let sb := s1.arrive (env t1)
    match sb.conn.poll_for_event with
    | (some e, conn') =>
        (some (Poll.ready (some e)), { sb with conn := conn' }, t1 + 1,
          tr ++ [BridgeAction.decoded (some e)])
    | (none, conn') =>
        let sc := { sb with conn := conn', would_block := true }
        match g with
        | none => (none, sc, t1 + 1, tr ++ [BridgeAction.decoded none])
        | some gt =>
            let sd := sc.arrive (env (t1 + 1))
            let se := { sd with os := sd.os.clear_ready gt }
            (none, se, t1 + 2,
              tr ++ [BridgeAction.decoded none, BridgeAction.cleared_ready gt])

/-- `BarEventStream::poll_next` / `XcbEventStream::poll_next`: iterate
`poll_iter`, following the source's tail-recursive `self.poll_next(cx)` retry,
with `fuel` bounding the number of passes (theorems supply ample fuel; on
exhaustion the model returns `pending`). -/
def poll_next : Nat → (Nat → List GenericEvent) → Nat → BridgeState →
    Poll (Option GenericEvent) × BridgeState × Nat × List BridgeAction
  | 0, _, t, s => (Poll.pending, s, t, [])
  | fuel + 1, env, t, s =>
    match poll_iter env t s with
    | (some r, s', t', tr) => (r, s', t', tr)
    | (none, s', t', tr) =>
        let rec' := poll_next fuel env t' s'
        (rec'.1, rec'.2.1, rec'.2.2.1, tr ++ rec'.2.2.2)

/-- Repeatedly call `poll_next` (up to `n` calls), collecting the emitted
events; stop at the first call that does not return an event. -/
def poll_seq : Nat → (Nat → List GenericEvent) → Nat → BridgeState →
    List GenericEvent × BridgeState
  | 0, _, _, s => ([], s)
  | n + 1, env, t, s =>
    match poll_next 4 env t s with
    | (Poll.ready (some e), s', t', _) =>
        let rest := poll_seq n env t' s'
        (e :: rest.1, rest.2)
    | (_, s', _, _) => ([], s')

/-- The property-change filter stream (`XcbPropertiesStream`): a one-shot
synthetic first pulse, the wrapped bridge stream, and the interest set of
atoms (`HashSet<xcb::Atom>`, modelled as a list). -/
structure XcbPropertiesStream where
  first : Option Unit
  inner : BridgeState
  props : List Nat
deriving Repr, DecidableEq

/-- `XcbPropertiesStream::new`: `first = Some(())`. -/
def XcbPropertiesStream.new (inner : BridgeState) (props : List Nat) : XcbPropertiesStream :=
  { first := some (), inner := inner, props := props }

/-- The `loop` inside `XcbPropertiesStream::poll_next`: drain the inner bridge
stream; a `PROPERTY_NOTIFY` event whose atom is in the interest set yields a
pulse, any other event is discarded and the loop continues; the inner stream's
`Pending` (via `ready!`), end-of-stream, and panic propagate out.  `ifuel` is
the fuel handed to each inner `poll_next` call; `fl` bounds the loop. -/
def filter_loop (ifuel : Nat) (env : Nat → List GenericEvent) :
    Nat → Nat → XcbPropertiesStream → Poll (Option Unit) × XcbPropertiesStream × Nat
  | 0, t, s => (Poll.pending, s, t)
  | fl + 1, t, s =>
    match poll_next ifuel env t s.inner with
    | (Poll.ready (some e), inner', t', _) =>
        let s' := { s with inner := inner' }
        if e.responseType = PROPERTY_NOTIFY then
          if s.props.contains e.atom then (Poll.ready (some ()), s', t')
          else filter_loop ifuel env fl t' s'
        else filter_loop ifuel env fl t' s'
    | (Poll.ready none, inner', t', _) => (Poll.ready none, { s with inner := inner' }, t')
    | (Poll.pending, inner', t', _) => (Poll.pending, { s with inner := inner' }, t')
    | (Poll.fatal m, inner', t', _) => (Poll.fatal m, { s with inner := inner' }, t')

/-- `XcbPropertiesStream::poll_next` (src/cnx/src/xcb.rs lines 180-198): take
the synthetic first pulse if still present, otherwise run the drain loop. -/
def XcbPropertiesStream.poll_next (ifuel fl : Nat) (env : Nat → List GenericEvent)
    (t : Nat) (s : XcbPropertiesStream) : Poll (Option Unit) × XcbPropertiesStream × Nat :=
  match s.first with
  | some v => (Poll.ready (some v), { s with first := none }, t)
  | none => filter_loop ifuel env fl t s

/-- The filter's match test: `response_type() == PROPERTY_NOTIFY` and the
event's atom is in the interest set. -/
def is_interesting (props : List Nat) (e : GenericEvent) : Bool :=
  (e.responseType == PROPERTY_NOTIFY) && props.contains e.atom

/-- Number of events in a buffer that the filter turns into pulses. -/
def count_matches (props : List Nat) (evs : List GenericEvent) : Nat :=
  evs.countP (is_interesting props)

/-- Drop events up to and including the first interesting one, returning the
remaining suffix (`none` when no event is interesting). -/
def drop_to_match (props : List Nat) : List GenericEvent → Option (List GenericEvent)
  | [] => none
  | e :: rest => if is_interesting props e then some rest else drop_to_match props rest

/-- Repeatedly call the filter's `poll_next` (up to `n` calls), counting the
pulses; stop at the first call that does not return a pulse. -/
def filter_seq : Nat → (Nat → List GenericEvent) → Nat → XcbPropertiesStream →
    Nat × XcbPropertiesStream
  | 0, _, _, s => (0, s)
  | n + 1, env, t, s =>
    match XcbPropertiesStream.poll_next 4 (s.inner.conn.buffer.length + 1) env t s with
    | (Poll.ready (some _), s', t') =>
        let rest := filter_seq n env t' s'
        (rest.1 + 1, rest.2)
    | (_, s', _) => (0, s')

/-- One piece of rendered content; the claims treat it as an opaque payload
(the real `Text` carries font, colors and padding, none of which the
scheduling core inspects). -/
structure Text where
  content : String
deriving Repr, DecidableEq

deriving instance DecidableEq for Except

/-- `WidgetStreamI = Result<Vec<Text>>`: one widget production value. -/
def WidgetStreamI : Type := Except String (List Text)

instance : DecidableEq WidgetStreamI := by
  unfold WidgetStreamI
  infer_instance

instance : Repr WidgetStreamI := by
  unfold WidgetStreamI
  infer_instance

/-- Modelled from the spec (section 4.2): the stream multiplexer.  The source
builds it with `tokio_stream`'s `merge` combinator
(`self.stream.merge(stream.into_stream()?.map(move |v| (idx, v)))`), library
code absent from the tree; the spec describes it as a cooperative fan-in
emitting `(index, value)` pairs in whatever order values become ready.  The
model runs the registered sources against an arbitrary interleaving
`sched`: at each step the scheduled source, if it still has a value, emits its
head paired with its index.  Returns the emitted pairs and the unconsumed
remainders of the sources. -/
def mergeRun {α : Type} (sources : List (List α)) :
    List Nat → List (Nat × α) × List (List α)
  | [] => ([], sources)
  | i :: sched =>
    match sources.getD i [] with
    | [] => mergeRun sources sched
    | v :: vs =>
        let rest := mergeRun (sources.set i vs) sched
        ((i, v) :: rest.1, rest.2)

/-- The bar's render state, reduced to its ordered per-widget content slots
(the full `Bar` in `bar.rs` also owns the connection and drawing surfaces,
which the scheduling claims do not touch). -/
structure Bar where
  contents : List (List Text)
deriving Repr, DecidableEq

/-- Modelled from the spec (sections 3 and 4.5): `Bar::add_content` (`bar.rs`
is not among the source files; only its callers are).  Registration appends a
fresh slot and returns its index, so slot indices are the dense range
`[0, N)` in registration order. -/
def Bar.add_content (b : Bar) (c : List Text) : Nat × Bar :=
  (b.contents.length, ⟨b.contents ++ [c]⟩)

/-- Modelled from the spec (sections 4.5 and 6): `Bar::update_content`
(`bar.rs` absent) replaces slot `idx`'s content and redraws; a render-surface
failure — abstracted as the oracle input `rerr` — or an out-of-range index is
reported as an error and leaves the slots unchanged. -/
def Bar.update_content (b : Bar) (idx : Nat) (texts : List Text)
    (rerr : Option String) : Except String Bar :=
  match rerr with
  | some m => Except.error m
  | none =>
      if idx < b.contents.length then Except.ok ⟨b.contents.set idx texts⟩
      else Except.error "invalid index"

/-- Modelled from the spec (section 4.5): `Bar::process_event` (`bar.rs`
absent) handles display-server-level events (expose/resize) without touching
widget content slots; a failure — abstracted as the oracle input `perr` — is
reported as an error. -/
def Bar.process_event (b : Bar) (_e : GenericEvent) (perr : Option String) :
    Except String Bar :=
  match perr with
  | some m => Except.error m
  | none => Except.ok b

/-- The `Cnx` builder state: the bar, the slot index returned by
`add_content` for each registration (in order), and the registered widget
production sequences that feed the merged stream. -/
structure Cnx where
  bar : Bar
  assigned : List Nat
  sources : List (List WidgetStreamI)
deriving Repr, DecidableEq

/-- `Cnx::new`: empty bar, empty merged stream (`tokio_stream::empty()`). -/
def Cnx.new : Cnx :=
  { bar := ⟨[]⟩, assigned := [], sources := [] }

/-- `Cnx::add_widget` (src/cnx/src/lib.rs lines 170-176): obtain a slot index
from `Bar::add_content` and merge the widget's stream, tagged with that index,
into the accumulated stream. -/
def Cnx.add_widget (c : Cnx) (w : List WidgetStreamI) : Cnx :=
  let r := c.bar.add_content []
  { bar := r.2, assigned := c.assigned ++ [r.1], sources := c.sources ++ [w] }

/-- The calls the run loop makes on the bar, plus its log lines. -/
inductive RunCall where
  | process_event (e : GenericEvent)
  | update_content (idx : Nat) (texts : List Text)
  | log (msg : String)
deriving Repr, DecidableEq

/-- What one iteration of the `tokio::select!` in `Cnx::run` resolved to:
an event from the bridge stream, an `(idx, result)` pair from the merged
widget stream (with the render oracle for the ensuing `update_content`), or
the bridge's readiness wait failing (the `panic!` inside
`BarEventStream::poll_next`, which aborts the loop). -/
inductive SelectOutcome where
  | xcb (e : GenericEvent) (perr : Option String)
  | widget (idx : Nat) (r : Except String (List Text)) (rerr : Option String)
  | bridgeFatal
deriving Repr, DecidableEq

/-- The body of the `loop` in `Cnx::run` (src/cnx/src/lib.rs lines 189-211):
dispatch one select outcome, returning the new bar state, the calls made, and
whether the loop continues. -/
def run_step (b : Bar) (o : SelectOutcome) : Bar × List RunCall × Bool :=
  match o with
  | SelectOutcome.xcb e perr =>
      match b.process_event e perr with
      | Except.ok b' => (b', [RunCall.process_event e], true)
      | Except.error m =>
          (b, [RunCall.process_event e,
               RunCall.log ("Error processing XCB event: " ++ m)], true)
  | SelectOutcome.widget idx r rerr =>
      match r with
      | Except.error m => (b, [RunCall.log ("Error from widget: " ++ m)], true)
      | Except.ok texts =>
          match b.update_content idx texts rerr with
          | Except.ok b' => (b', [RunCall.update_content idx texts], true)
          | Except.error m =>
              (b, [RunCall.update_content idx texts,
                   RunCall.log ("Error updating widget: " ++ m)], true)
  | SelectOutcome.bridgeFatal => (b, [], false)

/-- The possible fates of `Cnx::run` after consuming a finite prefix of select
outcomes: still looping, aborted by the bridge panic, or returned normally
(which the source's `loop` has no path to). -/
inductive RunResult where
  | running (b : Bar)
  | fatal (b : Bar)
  | returned
deriving Repr, DecidableEq

/-- Run the loop of `Cnx::run` over a finite trace of select outcomes,
accumulating the calls made. -/
def run_trace (b : Bar) : List SelectOutcome → RunResult × List RunCall
  | [] => (RunResult.running b, [])
  | o :: rest =>
    match run_step b o with
    | (b', calls, true) =>
        let r := run_trace b' rest
        (r.1, calls ++ r.2)
    | (b', calls, false) => (RunResult.fatal b', calls)

theorem arrive_nil (s : BridgeState) : s.arrive [] = s := rfl

theorem poll_seq_drain (evs : List GenericEvent) (g : Nat) (r : Bool) (t : Nat) :
    poll_seq evs.length (fun _ => []) t ⟨false, ⟨evs⟩, ⟨r, g, false⟩⟩ =
      (evs, ⟨false, ⟨[]⟩, ⟨r, g, false⟩⟩) := by
  induction evs generalizing t with
  | nil => rfl
  | cons e rest ih =>
    simp only [List.length_cons, poll_seq, poll_next, poll_iter, arrive_nil,
      Connection.poll_for_event]
    simp [ih]

/-- C1: starting from `WouldBlock` with `K` decodable events buffered and a
single readiness notification pending, `K` calls of the bridge's `poll_next`
emit exactly the `K` buffered events in order (one per call), and the next
call returns `Pending` with the stream back in the `WouldBlock` state. -/
theorem bridge_single_readiness_drains_K_events (evs : List GenericEvent) (g : Nat) :
    (poll_seq evs.length (fun _ => []) 0 ⟨true, ⟨evs⟩, ⟨true, g, false⟩⟩).1 = evs ∧
    (poll_next 4 (fun _ => []) 0
        (poll_seq evs.length (fun _ => []) 0 ⟨true, ⟨evs⟩, ⟨true, g, false⟩⟩).2).1 =
      Poll.pending ∧
    (poll_next 4 (fun _ => []) 0
        (poll_seq evs.length (fun _ => []) 0 ⟨true, ⟨evs⟩, ⟨true, g, false⟩⟩).2).2.1 =
      ⟨true, ⟨[]⟩, ⟨false, g, false⟩⟩ := by
  cases evs with
  | nil =>
    refine ⟨rfl, ?_, ?_⟩ <;>
      simp [poll_seq, poll_next, poll_iter, arrive_nil, Connection.poll_for_event,
        OsState.clear_ready]
  | cons e rest =>
    have hdrain := poll_seq_drain rest g true 2
    simp only [List.length_cons, poll_seq, poll_next, poll_iter, arrive_nil,
      Connection.poll_for_event]
    simp only [Bool.false_eq_true, if_false, if_true, Option.some.injEq]
    simp [hdrain, poll_seq, poll_next, poll_iter, arrive_nil, Connection.poll_for_event,
      OsState.clear_ready]

/-- C2: when the decode attempt fails, the bridge sets `would_block`, clears
the readiness token it acquired, and retries from the top of the poll inside
the same call; an event arriving strictly between the failed decode and the
`clear_ready` acknowledgment bumps the readiness generation, so the clear is a
no-op on it and the very same `poll_next` call returns that event — the trace
shows the failed decode, the clear, and the successful decode in order. -/
theorem bridge_missed_wakeup_resistant (g : Nat) (e : GenericEvent) :
    poll_next 4 (fun t => if t = 2 then [e] else []) 0 ⟨true, ⟨[]⟩, ⟨true, g, false⟩⟩ =
      (Poll.ready (some e), ⟨false, ⟨[]⟩, ⟨true, g + 1, false⟩⟩, 5,
       [BridgeAction.wait_ok g, BridgeAction.decoded none, BridgeAction.cleared_ready g,
        BridgeAction.wait_ok (g + 1), BridgeAction.decoded (some e)]) := by
  simp [poll_next, poll_iter, BridgeState.arrive, Connection.poll_for_event,
    OsState.clear_ready, Nat.succ_ne_self]

/-- C9: the bridge stream is constructed with `would_block = true`, so while
the reactor has not reported readiness (and no arrival occurs), its poll
returns `Pending` without emitting anything, leaving the connection's buffered
events untouched. -/
theorem bridge_starts_would_block (conn : Connection) (os : OsState) (fuel t : Nat)
    (hready : os.ready = false) (herr : os.err = false) :
    (BarEventStream.new conn os).would_block = true ∧
    (poll_next fuel (fun _ => []) t (BarEventStream.new conn os)).1 = Poll.pending ∧
    (poll_next fuel (fun _ => []) t (BarEventStream.new conn os)).2.1.conn = conn := by
  refine ⟨rfl, ?_⟩
  cases fuel with
  | zero => exact ⟨rfl, rfl⟩
  | succ n =>
    constructor <;>
      simp [poll_next, poll_iter, arrive_nil, BarEventStream.new, hready, herr]

theorem bridge_starts_would_block_witness :
    ((⟨false, 7, false⟩ : OsState).ready = false) ∧
    (poll_next 3 (fun _ => []) 0 (BarEventStream.new ⟨[⟨5, 1⟩]⟩ ⟨false, 7, false⟩)).1 =
      Poll.pending :=
  ⟨rfl, (bridge_starts_would_block ⟨[⟨5, 1⟩]⟩ ⟨false, 7, false⟩ 3 0 rfl rfl).2.1⟩

theorem arrive_err (s : BridgeState) (l : List GenericEvent) :
    (s.arrive l).os.err = s.os.err := by
  induction l generalizing s with
  | nil => rfl
  | cons e rest ih =>
    show ((BridgeState.arrive _ rest)).os.err = _
    rw [ih]

theorem run_step_continues (b : Bar) (o : SelectOutcome)
    (h : o ≠ SelectOutcome.bridgeFatal) : (run_step b o).2.2 = true := by
  cases o with
  | xcb e perr => cases perr <;> simp [run_step, Bar.process_event]
  | widget idx r rerr =>
      cases r with
      | error m => simp [run_step]
      | ok texts =>
          cases rerr with
          | none =>
              simp only [run_step, Bar.update_content]
              split <;> simp
          | some m => simp [run_step, Bar.update_content]
  | bridgeFatal => exact absurd rfl h

/-- C6: a `Ready(Err)` from the OS-level readiness wait (`poll_read_ready`) is
unrecoverable: the bridge's poll panics (result `fatal`); and once the run
loop's select hits the bridge panic, the rest of the outcome trace is never
processed — no further `update_content`, `process_event` or log call occurs. -/
theorem bridge_wait_error_fatal :
    (∀ (fuel t : Nat) (env : Nat → List GenericEvent) (s : BridgeState),
        s.would_block = true → s.os.err = true →
        (poll_next (fuel + 1) env t s).1 = Poll.fatal "Error polling xcb::Connection") ∧
    (∀ (b : Bar) (pre post : List SelectOutcome),
        (run_trace b (pre ++ SelectOutcome.bridgeFatal :: post)).2 =
          (run_trace b pre).2) := by
  constructor
  · intro fuel t env s hwb herr
    simp [poll_next, poll_iter, hwb, arrive_err, herr]
  · intro b pre post
    induction pre generalizing b with
    | nil => simp [run_trace, run_step]
    | cons o rest ih =>
        rcases hrs : run_step b o with ⟨b', calls, cont⟩
        cases cont with
        | true => simp [run_trace, hrs, ih]
        | false => simp [run_trace, hrs]

theorem bridge_wait_error_fatal_witness :
    ((⟨true, ⟨[]⟩, ⟨false, 0, true⟩⟩ : BridgeState).would_block = true) ∧
    (poll_next 1 (fun _ => []) 0 ⟨true, ⟨[]⟩, ⟨false, 0, true⟩⟩).1 =
      Poll.fatal "Error polling xcb::Connection" :=
  ⟨rfl, bridge_wait_error_fatal.1 0 0 (fun _ => []) ⟨true, ⟨[]⟩, ⟨false, 0, true⟩⟩ rfl rfl⟩

/-- C8: the run loop of `Cnx::run` has no normal-return path: over any finite
trace of select outcomes it is either still running or was aborted by the
bridge panic, and the aborted state is reached exactly when the trace contains
the bridge's fatal readiness-wait outcome. -/
theorem run_loop_never_returns (b : Bar) (tr : List SelectOutcome) :
    (run_trace b tr).1 ≠ RunResult.returned ∧
    ((∃ b', (run_trace b tr).1 = RunResult.fatal b') ↔
      SelectOutcome.bridgeFatal ∈ tr) := by
  induction tr generalizing b with
  | nil => simp [run_trace]
  | cons o rest ih =>
    by_cases ho : o = SelectOutcome.bridgeFatal
    · subst ho
      simp [run_trace, run_step]
    · rcases hrs : run_step b o with ⟨b', calls, cont⟩
      have hcont : cont = true := by
        have h := run_step_continues b o ho
        rw [hrs] at h
        exact h
      subst hcont
      have hne : SelectOutcome.bridgeFatal ≠ o := fun h => ho h.symm
      simp [run_trace, hrs, (ih b').1, (ih b').2, hne]

/-- C5: a failure value from a widget is only logged — the bar is unchanged,
`update_content` is not invoked, and the loop continues; an error returned by
`update_content` is logged and the loop still continues with the bar
unchanged; every non-fatal outcome continues the loop; and a subsequent
success from the same widget does update its slot. -/
theorem run_loop_isolates_widget_errors :
    (∀ (b : Bar) (idx : Nat) (m : String) (rerr : Option String),
        run_step b (SelectOutcome.widget idx (Except.error m) rerr) =
          (b, [RunCall.log ("Error from widget: " ++ m)], true)) ∧
    (∀ (b : Bar) (idx : Nat) (texts : List Text) (m : String),
        run_step b (SelectOutcome.widget idx (Except.ok texts) (some m)) =
          (b, [RunCall.update_content idx texts,
               RunCall.log ("Error updating widget: " ++ m)], true)) ∧
    (∀ (b : Bar) (o : SelectOutcome), o ≠ SelectOutcome.bridgeFatal →
        (run_step b o).2.2 = true) ∧
    (∀ (b : Bar) (idx : Nat) (texts : List Text), idx < b.contents.length →
        run_step b (SelectOutcome.widget idx (Except.ok texts) none) =
          (⟨b.contents.set idx texts⟩, [RunCall.update_content idx texts], true)) := by
  refine ⟨fun b idx m rerr => rfl, fun b idx texts m => rfl, run_step_continues,
    fun b idx texts h => ?_⟩
  simp [run_step, Bar.update_content, h]

theorem run_loop_isolates_widget_errors_witness :
    (0 < (⟨[[]]⟩ : Bar).contents.length) ∧
    run_step ⟨[[]]⟩ (SelectOutcome.widget 0 (Except.ok [⟨"x"⟩]) none) =
      (⟨[[⟨"x"⟩]]⟩, [RunCall.update_content 0 [⟨"x"⟩]], true) ∧
    ((SelectOutcome.widget 0 (Except.error "boom") none ≠ SelectOutcome.bridgeFatal) ∧
      (run_step ⟨[[]]⟩ (SelectOutcome.widget 0 (Except.error "boom") none)).2.2 = true) :=
  ⟨by decide,
   run_loop_isolates_widget_errors.2.2.2 ⟨[[]]⟩ 0 [⟨"x"⟩] (by decide),
   by decide,
   run_loop_isolates_widget_errors.2.2.1 ⟨[[]]⟩
     (SelectOutcome.widget 0 (Except.error "boom") none) (by decide)⟩

theorem getD_set_self {β : Type} (l : List β) (i : Nat) (x d : β)
    (h : i < l.length) : (l.set i x).getD i d = x := by
  induction l generalizing i with
  | nil => simp at h
  | cons a as ih =>
    cases i with
    | zero => rfl
    | succ n => simpa using ih n (by simpa using h)

theorem getD_set_ne {β : Type} (l : List β) (i j : Nat) (x d : β)
    (h : i ≠ j) : (l.set i x).getD j d = l.getD j d := by
  induction l generalizing i j with
  | nil => rfl
  | cons a as ih =>
    cases i with
    | zero =>
      cases j with
      | zero => exact absurd rfl h
      | succ m => rfl
    | succ n =>
      cases j with
      | zero => rfl
      | succ m => simpa using ih n m (fun hc => h (by rw [hc]))

theorem getD_ne_nil_lt {β : Type} (l : List (List β)) (i : Nat)
    (h : l.getD i [] ≠ []) : i < l.length := by
  by_contra hlt
  exact h (List.getD_eq_default l [] (Nat.le_of_not_lt hlt))

/-- C4: the multiplexer's output restricted to one source index `i`, followed
by whatever remains unconsumed of source `i`, is exactly source `i`'s own
production sequence — so for any interleaving schedule, the merged stream
neither reorders, duplicates, nor loses any of a single widget's events; when
the schedule drains source `i`, the restriction equals the source exactly. -/
theorem merge_preserves_per_index_order {α : Type} (sched : List Nat)
    (sources : List (List α)) (i : Nat) :
    ((mergeRun sources sched).1.filterMap
        (fun p => if p.1 = i then some p.2 else none)) ++
      (mergeRun sources sched).2.getD i [] = sources.getD i [] := by
  induction sched generalizing sources with
  | nil => simp [mergeRun]
  | cons j sched ih =>
    rcases hj : sources.getD j [] with _ | ⟨v, vs⟩
    · rw [mergeRun, hj]
      exact ih sources
    · rw [mergeRun, hj]
      have hjlt : j < sources.length := getD_ne_nil_lt sources j (by rw [hj]; simp)
      by_cases hji : j = i
      · subst hji
        have hih := ih (sources.set j vs)
        rw [getD_set_self sources j vs [] hjlt] at hih
        rw [hj]
        simp only [List.filterMap_cons]
        simp only [List.getD_eq_getElem?_getD] at hih
        simp [hih]
      · have hih := ih (sources.set j vs)
        rw [getD_set_ne sources j i vs [] hji] at hih
        simp only [List.filterMap_cons, if_neg hji]
        exact hih

theorem mergeRun_indices_lt {α : Type} (sched : List Nat) (sources : List (List α)) :
    ∀ p ∈ (mergeRun sources sched).1, p.1 < sources.length := by
  induction sched generalizing sources with
  | nil => simp [mergeRun]
  | cons j sched ih =>
    intro p hp
    rcases hj : sources.getD j [] with _ | ⟨v, vs⟩
    · rw [mergeRun, hj] at hp
      exact ih sources p hp
    · rw [mergeRun, hj] at hp
      rcases List.mem_cons.mp hp with hhd | htl
      · subst hhd
        exact getD_ne_nil_lt sources j (by rw [hj]; simp)
      · have := ih (sources.set j vs) p htl
        simpa using this

theorem add_widget_foldl (ws : List (List WidgetStreamI)) (c : Cnx) :
    (ws.foldl Cnx.add_widget c).assigned
        = c.assigned ++ List.range' c.bar.contents.length ws.length ∧
    (ws.foldl Cnx.add_widget c).bar.contents.length
        = c.bar.contents.length + ws.length ∧
    (ws.foldl Cnx.add_widget c).sources = c.sources ++ ws := by
  induction ws generalizing c with
  | nil => simp
  | cons w ws ih =>
    obtain ⟨h1, h2, h3⟩ := ih (c.add_widget w)
    refine ⟨?_, ?_, ?_⟩
    · rw [List.foldl_cons, h1]
      simp [Cnx.add_widget, Bar.add_content, List.range']
    · rw [List.foldl_cons, h2]
      simp [Cnx.add_widget, Bar.add_content]
      omega
    · rw [List.foldl_cons, h3]
      simp [Cnx.add_widget]

/-- C7: registering `N` widgets starting from `Cnx::new` assigns the slot
indices `0, 1, …, N-1` in registration order (`add_content` returning each new
slot's index), the bar ends up with `N` slots, and every `(index, value)` pair
the merged stream can emit carries an index below `N` — a valid registered
slot, so `update_content` is never invoked out of range. -/
theorem slot_indices_dense_and_valid (ws : List (List WidgetStreamI)) (sched : List Nat) :
    (ws.foldl Cnx.add_widget Cnx.new).assigned = List.range ws.length ∧
    (ws.foldl Cnx.add_widget Cnx.new).bar.contents.length = ws.length ∧
    (∀ p ∈ (mergeRun (ws.foldl Cnx.add_widget Cnx.new).sources sched).1,
        p.1 < ws.length) := by
  obtain ⟨h1, h2, h3⟩ := add_widget_foldl ws Cnx.new
  refine ⟨?_, ?_, ?_⟩
  · rw [h1]
    simp [Cnx.new, List.range_eq_range']
  · rw [h2]
    simp [Cnx.new]
  · intro p hp
    have hlt := mergeRun_indices_lt sched _ p hp
    rw [h3] at hlt
    simpa [Cnx.new] using hlt

theorem slot_indices_dense_and_valid_witness :
    ((0, (Except.ok [] : WidgetStreamI)) ∈
        (mergeRun (([[Except.ok []]] : List (List WidgetStreamI)).foldl
            Cnx.add_widget Cnx.new).sources [0]).1) ∧
    (0 : Nat) < 1 :=
  ⟨by decide,
   (slot_indices_dense_and_valid [[Except.ok []]] [0]).2.2 (0, Except.ok []) (by decide)⟩

theorem drop_to_match_none (P : List Nat) (evs : List GenericEvent)
    (h : drop_to_match P evs = none) : count_matches P evs = 0 := by
  induction evs with
  | nil => rfl
  | cons e rest ih =>
    by_cases he : is_interesting P e
    · simp [drop_to_match, he] at h
    · simp only [drop_to_match, he, Bool.false_eq_true, if_false] at h
      have h0 := ih h
      simp only [count_matches, List.countP_cons, he, Bool.false_eq_true,
        if_false] at h0 ⊢
      omega

theorem drop_to_match_some (P : List Nat) (evs rest : List GenericEvent)
    (h : drop_to_match P evs = some rest) :
    count_matches P evs = count_matches P rest + 1 ∧ rest.length < evs.length := by
  induction evs generalizing rest with
  | nil => simp [drop_to_match] at h
  | cons e tl ih =>
    by_cases he : is_interesting P e
    · simp only [drop_to_match, he, if_true, Option.some.injEq] at h
      subst h
      constructor
      · simp [count_matches, List.countP_cons, he]
      · simp
    · simp only [drop_to_match, he, Bool.false_eq_true, if_false] at h
      obtain ⟨h1, h2⟩ := ih rest h
      constructor
      · simp only [count_matches, List.countP_cons, he, Bool.false_eq_true,
          if_false] at h1 ⊢
        omega
      · simp
        omega

theorem filter_loop_drain (P : List Nat) (evs : List GenericEvent) :
    ∀ (wb : Bool) (g t fl : Nat), evs.length < fl →
    (filter_loop 4 (fun _ => []) fl t ⟨none, ⟨wb, ⟨evs⟩, ⟨true, g, false⟩⟩, P⟩).1 =
      (match drop_to_match P evs with
       | some _ => Poll.ready (some ())
       | none => Poll.pending) ∧
    (filter_loop 4 (fun _ => []) fl t ⟨none, ⟨wb, ⟨evs⟩, ⟨true, g, false⟩⟩, P⟩).2.1 =
      (match drop_to_match P evs with
       | some rest => ⟨none, ⟨false, ⟨rest⟩, ⟨true, g, false⟩⟩, P⟩
       | none => ⟨none, ⟨true, ⟨[]⟩, ⟨false, g, false⟩⟩, P⟩) := by
  induction evs with
  | nil =>
    intro wb g t fl hfl
    cases fl with
    | zero => exact absurd hfl (by omega)
    | succ fl =>
      cases wb <;>
        simp [filter_loop, drop_to_match, poll_next, poll_iter, arrive_nil,
          Connection.poll_for_event, OsState.clear_ready]
  | cons e rest ih =>
    intro wb g t fl hfl
    cases fl with
    | zero => exact absurd hfl (by omega)
    | succ fl =>
      have hrest : rest.length < fl := by
        simpa using Nat.lt_of_succ_lt_succ hfl
      by_cases h1 : e.responseType = PROPERTY_NOTIFY
      · by_cases h2 : e.atom ∈ P
        · cases wb <;>
            simp [filter_loop, drop_to_match, is_interesting, h1, h2, poll_next,
              poll_iter, arrive_nil, Connection.poll_for_event]
        · cases wb with
          | false =>
            obtain ⟨ih1, ih2⟩ := ih false g (t + 1) fl hrest
            simp [filter_loop, drop_to_match, is_interesting, h1, h2, poll_next,
              poll_iter, arrive_nil, Connection.poll_for_event, ih1, ih2]
          | true =>
            obtain ⟨ih1, ih2⟩ := ih false g (t + 2) fl hrest
            simp [filter_loop, drop_to_match, is_interesting, h1, h2, poll_next,
              poll_iter, arrive_nil, Connection.poll_for_event, ih1, ih2]
      · cases wb with
        | false =>
          obtain ⟨ih1, ih2⟩ := ih false g (t + 1) fl hrest
          simp [filter_loop, drop_to_match, is_interesting, h1, poll_next,
            poll_iter, arrive_nil, Connection.poll_for_event, ih1, ih2]
        | true =>
          obtain ⟨ih1, ih2⟩ := ih false g (t + 2) fl hrest
          simp [filter_loop, drop_to_match, is_interesting, h1, poll_next,
            poll_iter, arrive_nil, Connection.poll_for_event, ih1, ih2]

theorem filter_seq_succ (n : Nat) (env : Nat → List GenericEvent) (t : Nat)
    (s : XcbPropertiesStream) :
    filter_seq (n + 1) env t s =
      match XcbPropertiesStream.poll_next 4 (s.inner.conn.buffer.length + 1) env t s with
      | (Poll.ready (some _), s', t') =>
          ((filter_seq n env t' s').1 + 1, (filter_seq n env t' s').2)
      | (_, s', _) => (0, s') := rfl

theorem filter_seq_count (P : List Nat) :
    ∀ (k : Nat) (evs : List GenericEvent), evs.length ≤ k →
    ∀ (wb : Bool) (g t : Nat),
      filter_seq (count_matches P evs + 1) (fun _ => []) t
          ⟨none, ⟨wb, ⟨evs⟩, ⟨true, g, false⟩⟩, P⟩ =
        (count_matches P evs, ⟨none, ⟨true, ⟨[]⟩, ⟨false, g, false⟩⟩, P⟩) := by
  intro k
  induction k with
  | zero =>
    intro evs hlen wb g t
    have hnil : evs = [] := List.eq_nil_of_length_eq_zero (Nat.le_zero.mp hlen)
    subst hnil
    obtain ⟨hA1, hA2⟩ :=
      filter_loop_drain P [] wb g t 1 (Nat.lt_succ_self _)
    rcases hfl : filter_loop 4 (fun _ => []) 1 t
        ⟨none, ⟨wb, ⟨[]⟩, ⟨true, g, false⟩⟩, P⟩ with ⟨r, s', t'⟩
    rw [hfl] at hA1 hA2
    simp only [drop_to_match] at hA1 hA2
    rw [filter_seq_succ]
    simp only [XcbPropertiesStream.poll_next, List.length_nil, Nat.zero_add]
    rw [hfl]
    subst hA1
    subst hA2
    rfl
  | succ k ihk =>
    intro evs hlen wb g t
    obtain ⟨hA1, hA2⟩ :=
      filter_loop_drain P evs wb g t (evs.length + 1) (Nat.lt_succ_self _)
    rcases hfl : filter_loop 4 (fun _ => []) (evs.length + 1) t
        ⟨none, ⟨wb, ⟨evs⟩, ⟨true, g, false⟩⟩, P⟩ with ⟨r, s', t'⟩
    rw [hfl] at hA1 hA2
    rcases hd : drop_to_match P evs with _ | rest
    · rw [hd] at hA1 hA2
      simp only at hA1 hA2
      have hc := drop_to_match_none P evs hd
      rw [hc]
      rw [filter_seq_succ]
      simp only [XcbPropertiesStream.poll_next]
      rw [hfl]
      subst hA1
      subst hA2
      rfl
    · rw [hd] at hA1 hA2
      simp only at hA1 hA2
      obtain ⟨hc, hlt⟩ := drop_to_match_some P evs rest hd
      rw [hc]
      rw [filter_seq_succ]
      simp only [XcbPropertiesStream.poll_next]
      rw [hfl]
      subst hA1
      subst hA2
      have hrec := ihk rest (by omega) false g t'
      simp [hrec]

/-- C3: from a subscription (fresh filter over a bridge holding a readiness
notification and `evs` buffered raw events), repeatedly polling the filter
yields exactly `1 + (number of PROPERTY_NOTIFY events in evs whose atom is in
the interest set)` pulses — one synthetic pulse first, one pulse per matching
raw event, zero per non-matching event — before the filter returns `Pending`
with the bridge drained back to `WouldBlock`; non-matching events are skipped
inside a single poll rather than making that poll return `Pending`. -/
theorem filter_pulse_count (P : List Nat) (evs : List GenericEvent) (g : Nat) :
    filter_seq (count_matches P evs + 2) (fun _ => []) 0
        (XcbPropertiesStream.new ⟨true, ⟨evs⟩, ⟨true, g, false⟩⟩ P) =
      (count_matches P evs + 1, ⟨none, ⟨true, ⟨[]⟩, ⟨false, g, false⟩⟩, P⟩) := by
  have hrec := filter_seq_count P evs.length evs (le_refl _) true g 0
  show filter_seq ((count_matches P evs + 1) + 1) (fun _ => []) 0 _ = _
  rw [filter_seq_succ]
  simp only [XcbPropertiesStream.poll_next, XcbPropertiesStream.new]
  simp [hrec]

/-- C10: the filter's first poll returns the synthetic pulse without polling
the underlying bridge stream at all — for any bridge state whatsoever (never
ready, pending, or ended), the result is a pulse, the inner state is
untouched, and the micro-step clock has not advanced. -/
theorem filter_first_pulse_immediate (ifuel fl t : Nat)
    (env : Nat → List GenericEvent) (inner : BridgeState) (P : List Nat) :
    XcbPropertiesStream.poll_next ifuel fl env t (XcbPropertiesStream.new inner P) =
      (Poll.ready (some ()), ⟨none, inner, P⟩, t) := rfl
